import Mathlib

/-!
Shallow embedding of `src/get-test-rule.ts` from vitest-stylelint-utils.

The source exports a factory `getTestRule(options)` returning a `testRule(schema)`
function that registers Vitest `describe`/`it` groups and, inside each leaf test,
invokes Stylelint's `lint` and asserts on its output.  The embedding models:

* the schema and warning data types (TS interfaces, optional fields as `Option`);
* JavaScript truthiness where the source relies on it (`||`, `if (x)`, `!x`);
* the external linting engine as an oracle function inside an `Env`;
* a leaf test body as a `RunResult`: the ordered list of engine invocations it
  performed together with its outcome, where a failed `expect` or a `throw`
  aborts the body with a `Failure` (Vitest assertions throw on failure);
* the registration side as a `TestTree` of labelled groups and named leaves.
-/

namespace VitestStylelint

/-- Execution modifier of a registered group or test: plain, `.only` or `.skip`. -/
inductive ExecMode where
  | normal
  | only
  | skip
deriving DecidableEq, Repr

/-- The runner-variant selection `x.only ? f.only : x.skip ? f.skip : f`
used at lines 327-331 and 336 of the source. -/
def modeOf (only skip : Bool) : ExecMode :=
  if only then ExecMode.only else if skip then ExecMode.skip else ExecMode.normal

/-- A Stylelint `plugins` value: a single path or a list of paths
(TS type `string | string[]`). -/
inductive Plugins where
  | single (path : String)
  | multiple (paths : List String)
deriving DecidableEq, Repr

/-- JavaScript truthiness of a `plugins` value: the empty string is falsy,
every array (even the empty one) is truthy. -/
def Plugins.jsTruthy : Plugins → Bool
  | Plugins.single path => path != ""
  | Plugins.multiple _ => true

/-- JavaScript truthiness of an optional string: `undefined` and `""` are falsy. -/
def jsTruthyStr (o : Option String) : Bool :=
  match o with
  | some s => s != ""
  | none => false

/-- JavaScript `o || d` for an optional string against a string default:
the default is taken when `o` is `undefined` or the empty string. -/
def jsOrString (o : Option String) (d : String) : String :=
  match o with
  | some s => if s = "" then d else s
  | none => d

/-- JavaScript `a || b` on optional `plugins` values (line 169 of the source). -/
def jsOrPlugins (a b : Option Plugins) : Option Plugins :=
  match a with
  | some p => if p.jsTruthy then some p else b
  | none => b

/-- An expected warning of a reject case: all fields optional (TS type `Warning`). -/
structure Warning where
  message : Option String
  line : Option Nat
  column : Option Nat
  endLine : Option Nat
  endColumn : Option Nat
deriving DecidableEq, Repr

/-- The shared base of test cases (TS type `TestCase`): source text, optional
description, optional `only`/`skip` flags (absent flags behave as `false`). -/
structure TestCase where
  code : String
  description : Option String
  only : Bool
  skip : Bool
deriving DecidableEq, Repr

/-- `AcceptTestCase` is an alias of `TestCase` in the source. -/
abbrev AcceptTestCase := TestCase

/-- A reject case (TS type `RejectTestCase`): the base fields, the single-warning
fields, and `fixed`/`unfixable`/`warnings`. -/
structure RejectTestCase where
  code : String
  description : Option String
  only : Bool
  skip : Bool
  message : Option String
  line : Option Nat
  column : Option Nat
  endLine : Option Nat
  endColumn : Option Nat
  fixed : Option String
  unfixable : Bool
  warnings : Option (List Warning)
deriving DecidableEq, Repr

/-- The base-fields view of a reject case (TS subtyping `RejectTestCase <: TestCase`). -/
def RejectTestCase.toTestCase (tc : RejectTestCase) : TestCase :=
  { code := tc.code, description := tc.description, only := tc.only, skip := tc.skip }

/-- The single-warning view of a reject case, used by `[testCase]` at line 237. -/
def RejectTestCase.toWarning (tc : RejectTestCase) : Warning :=
  { message := tc.message, line := tc.line, column := tc.column,
    endLine := tc.endLine, endColumn := tc.endColumn }

/-- The schema handed to `testRule` (TS type `TestSchema`).  `Cfg` is the opaque
type of the rule configuration.  A `none` entry inside the case lists models a
null/undefined hole in the caller's array. -/
structure TestSchema (Cfg : Type) where
  ruleName : String
  config : Cfg
  accept : Option (List (Option AcceptTestCase))
  reject : Option (List (Option RejectTestCase))
  fix : Bool
  plugins : Option Plugins
  customSyntax : Option String
  codeFilename : Option String
  only : Bool
  skip : Bool

/-- The factory's options (TS type `GetTestRuleOptions`). -/
structure GetTestRuleOptions where
  plugins : Option Plugins
deriving DecidableEq, Repr

/-- The engine configuration built at lines 168-173 of the source. -/
structure StylelintConfig (Cfg : Type) where
  plugins : Option Plugins
  rules : String × Cfg
deriving DecidableEq, Repr

/-- Lines 168-173: `{ plugins: options.plugins || schema.plugins,
rules: { [schema.ruleName]: schema.config } }`. -/
def buildStylelintConfig {Cfg : Type} (options : GetTestRuleOptions)
    (schema : TestSchema Cfg) : StylelintConfig Cfg :=
  { plugins := jsOrPlugins options.plugins schema.plugins,
    rules := (schema.ruleName, schema.config) }

/-- The options object passed to `lint` (lines 181-186, 216-221; `fix` is set by
the spreads at lines 199-202, 277-280 and 297-301). -/
structure LintOptions (Cfg : Type) where
  code : String
  config : StylelintConfig Cfg
  customSyntax : Option String
  codeFilename : Option String
  fix : Bool
deriving DecidableEq, Repr

/-- The `stylelintOptions` object a leaf test builds for a case's code. -/
def mkLintOptions {Cfg : Type} (cfg : StylelintConfig Cfg) (schema : TestSchema Cfg)
    (code : String) : LintOptions Cfg :=
  { code := code, config := cfg, customSyntax := schema.customSyntax,
    codeFilename := schema.codeFilename, fix := false }

/-- An actual diagnostic as returned by the engine.  Stylelint rule warnings carry
`text`/`line`/`column` (and sometimes end positions); invalid-option warnings carry
only `text`, hence the optional position fields. -/
structure ActualWarning where
  text : String
  line : Option Nat
  column : Option Nat
  endLine : Option Nat
  endColumn : Option Nat
deriving DecidableEq, Repr

/-- A PostCSS root node, observed only through `root.toString(syntaxArg)`. -/
structure RootNode where
  toStringWith : Option String → String

/-- The processing options recorded on a PostCSS result; `syntaxName` models the
`opts.syntax` field of the source (renamed, the original word is reserved here). -/
structure ProcessOptions where
  syntaxName : Option String

/-- The internal processed-tree handle `_postcssResult` of a Stylelint result:
possibly-absent `root` and `opts`. -/
structure PostcssResult where
  root : Option RootNode
  opts : Option ProcessOptions

/-- One entry of `output.results`. -/
structure StylelintResult where
  warnings : List ActualWarning
  parseErrors : List String
  invalidOptionWarnings : List ActualWarning
  postcssResult : Option PostcssResult

/-- The value returned by `lint` (TS type `LinterResult`, restricted to what the
source reads). -/
structure LinterResult where
  results : List StylelintResult

/-- Why a leaf test body aborted: a failed Vitest assertion, a `throw new Error`,
or a thrown `TypeError`. -/
inductive Failure where
  | assertion (message : String)
  | thrown (message : String)
  | typeError (message : String)
deriving DecidableEq, Repr

/-- Lines 352-360: `getOutputCss`.  Reading a field of `results[0]` when `results`
is empty throws a TypeError in JavaScript, modelled by the first branch. -/
def getOutputCss (output : LinterResult) : Except Failure String :=
  match output.results.head? with
  | none => Except.error (Failure.typeError "Cannot read properties of undefined")
  | some result =>
    match result.postcssResult with
    | some pr =>
      match pr.root, pr.opts with
      | some root, some opts => Except.ok (root.toStringWith opts.syntaxName)
      | _, _ => Except.error (Failure.typeError "Invalid result")
    | none => Except.error (Failure.typeError "Invalid result")

/-- The external collaborators a leaf test uses: the linting engine (`lint`) and
`util.inspect` applied to rule configurations and to source strings. -/
structure Env (Cfg : Type) where
  lint : LintOptions Cfg → LinterResult
  inspectConfig : Cfg → String
  inspectString : String → String

/-- What running one leaf test body does: the ordered engine invocations it made
and its outcome (`ok` = every assertion passed, `error` = first failure). -/
structure RunResult (Cfg : Type) where
  calls : List (LintOptions Cfg)
  outcome : Except Failure Unit

/-- The body of an accept-case leaf test (lines 179-207 of the source): lint the
case's code, assert the three diagnostic lists are empty, and when the schema's
`fix` flag is set, lint again with `fix: true` and assert the extracted output
equals the original code. -/
def acceptBody {Cfg : Type} (env : Env Cfg) (cfg : StylelintConfig Cfg)
    (schema : TestSchema Cfg) (tc : AcceptTestCase) : RunResult Cfg :=
  let opts := mkLintOptions cfg schema tc.code
  let output := env.lint opts
  match output.results.head? with
  | none => ⟨[opts], Except.error (Failure.typeError "Cannot read properties of undefined")⟩
  | some r =>
    if r.warnings = [] then
      if r.parseErrors = [] then
        if r.invalidOptionWarnings = [] then
          if schema.fix = false then ⟨[opts], Except.ok ()⟩
          else
            let fixOpts := { opts with fix := true }
            let outputAfterFix := env.lint fixOpts
            match getOutputCss outputAfterFix with
            | Except.error e => ⟨[opts, fixOpts], Except.error e⟩
            | Except.ok fixedCode =>
              if fixedCode = tc.code then ⟨[opts, fixOpts], Except.ok ()⟩
              else ⟨[opts, fixOpts],
                Except.error (Failure.assertion "expected fixedCode to be the case code")⟩
        else ⟨[opts], Except.error (Failure.assertion "expected invalidOptionWarnings to equal the empty list")⟩
      else ⟨[opts], Except.error (Failure.assertion "expected parseErrors to equal the empty list")⟩
    else ⟨[opts], Except.error (Failure.assertion "expected warnings to equal the empty list")⟩

/-- Line 225-228: the ordered actual-warnings sequence, `invalidOptionWarnings`
first, then `warnings`. -/
def actualWarningsOf (r : StylelintResult) : List ActualWarning :=
  r.invalidOptionWarnings ++ r.warnings

/-- Line 234: `testCase.warnings ? testCase.warnings.length : 1` (an array is
truthy even when empty). -/
def expectedWarningCount (tc : RejectTestCase) : Nat :=
  match tc.warnings with
  | some ws => ws.length
  | none => 1

/-- Line 237: `testCase.warnings || [testCase]` (an empty array is truthy). -/
def effectiveWarnings (tc : RejectTestCase) : List Warning :=
  match tc.warnings with
  | some ws => ws
  | none => [tc.toWarning]

/-- The `toMatchObject` comparison at line 258 after the `delete` loop at lines
252-256: only the defined fields among
`{text: message, line, column, endLine, endColumn}` are compared. -/
def subsetMatches (actual : ActualWarning) (expected : Warning) : Bool :=
  (match expected.message with | some m => actual.text == m | none => true) &&
  (match expected.line with | some v => actual.line == some v | none => true) &&
  (match expected.column with | some v => actual.column == some v | none => true) &&
  (match expected.endLine with | some v => actual.endLine == some v | none => true) &&
  (match expected.endColumn with | some v => actual.endColumn == some v | none => true)

/-- The `warnings.forEach` loop at lines 238-259: for each expected warning, the
`message` field must be defined, and the actual warning at the same index must
subset-match the partial object; the first failing assertion aborts the body.
`expect(undefined).toMatchObject(...)` (index past the end) also fails. -/
def checkExpectedWarnings : List Warning → List ActualWarning → Except Failure Unit
  | [], _ => Except.ok ()
  | w :: _, [] =>
    if w.message.isSome then
      Except.error (Failure.assertion "expected warning to match the expected partial object")
    else Except.error (Failure.assertion "Expected \"reject\" test case to have a \"message\" property")
  | w :: ws, a :: rest =>
    if w.message.isSome then
      if subsetMatches a w then checkExpectedWarnings ws rest
      else Except.error (Failure.assertion "expected warning to match the expected partial object")
    else Except.error (Failure.assertion "Expected \"reject\" test case to have a \"message\" property")

/-- Lines 230-259 on the first result entry of a reject case: the
`parseErrors: []` match, the warning-count assertion, and the per-warning loop. -/
def rejectFirstPhase (r : StylelintResult) (tc : RejectTestCase) : Except Failure Unit :=
  if r.parseErrors = [] then
    if (actualWarningsOf r).length = expectedWarningCount tc then
      checkExpectedWarnings (effectiveWarnings tc) (actualWarningsOf r)
    else Except.error (Failure.assertion "expected actual warnings to have the expected length")
  else Except.error (Failure.assertion "expected parseErrors to equal the empty list")

/-- Lines 284-294: the fixed-code assertions of a reject case.  When `unfixable`
is unset, the fixed text must equal the declared `fixed` and differ from the
original code; when it is set, the fixed text is compared with `fixed` only when
`fixed` is truthy (defined and non-empty), and must always equal the original
code. -/
def fixChecksOf (tc : RejectTestCase) (fixedCode : String) : Except Failure Unit :=
  if tc.unfixable = false then
    if tc.fixed = some fixedCode then
      if fixedCode = tc.code then
        Except.error (Failure.assertion "expected fixedCode not to be the case code")
      else Except.ok ()
    else Except.error (Failure.assertion "expected fixedCode to be the declared fixed code")
  else
    if jsTruthyStr tc.fixed && !(tc.fixed == some fixedCode) then
      Except.error (Failure.assertion "expected fixedCode to be the declared fixed code")
    else if fixedCode = tc.code then Except.ok ()
    else Except.error (Failure.assertion "expected fixedCode to be the case code")

/-- Lines 261-307 of a reject-case body: everything after the warning assertions.
`opts` is the `stylelintOptions` object already used for the first lint pass. -/
def rejectFixPhase {Cfg : Type} (env : Env Cfg) (opts : LintOptions Cfg)
    (schema : TestSchema Cfg) (tc : RejectTestCase) : RunResult Cfg :=
  if schema.fix = false then ⟨[opts], Except.ok ()⟩
  else if schema.fix && !(jsTruthyStr tc.fixed) && !(tc.fixed == some "") && !tc.unfixable then
    ⟨[opts], Except.error (Failure.thrown
      "If using \x7b fix: true \x7d in test schema, all reject cases must have \x7b fixed: .. \x7d")⟩
  else
    let fixOpts := { opts with fix := true }
    let outputAfterFix := env.lint fixOpts
    match getOutputCss outputAfterFix with
    | Except.error e => ⟨[opts, fixOpts], Except.error e⟩
    | Except.ok fixedCode =>
      match fixChecksOf tc fixedCode with
      | Except.error e => ⟨[opts, fixOpts], Except.error e⟩
      | Except.ok _ =>
        let fixedOpts := { opts with code := fixedCode, fix := tc.unfixable }
        let outputAfterLintOnFixedCode := env.lint fixedOpts
        match outputAfterLintOnFixedCode.results.head?, outputAfterFix.results.head? with
        | some r2, some r1 =>
          if r2.warnings = r1.warnings ∧ r2.parseErrors = [] then
            ⟨[opts, fixOpts, fixedOpts], Except.ok ()⟩
          else ⟨[opts, fixOpts, fixedOpts], Except.error (Failure.assertion
            "expected the re-lint result to match the post-fix warnings with empty parseErrors")⟩
        | _, _ => ⟨[opts, fixOpts, fixedOpts],
            Except.error (Failure.typeError "Cannot read properties of undefined")⟩

/-- The body of a reject-case leaf test (lines 214-307 of the source). -/
def rejectBody {Cfg : Type} (env : Env Cfg) (cfg : StylelintConfig Cfg)
    (schema : TestSchema Cfg) (tc : RejectTestCase) : RunResult Cfg :=
  let opts := mkLintOptions cfg schema tc.code
  let outputAfterLint := env.lint opts
  match outputAfterLint.results.head? with
  | none => ⟨[opts], Except.error (Failure.typeError "Cannot read properties of undefined")⟩
  | some r =>
    match rejectFirstPhase r tc with
    | Except.error e => ⟨[opts], Except.error e⟩
    | Except.ok _ => rejectFixPhase env opts schema tc

/-- The tree of runner registrations: `describe` groups with labels and `it`
leaves with names; `β` is the type standing for a leaf's test body. -/
inductive TestTree (β : Type) where
  | group (label : String) (mode : ExecMode) (children : List (TestTree β))
  | leaf (name : String) (mode : ExecMode) (body : β)

/-- Lines 320-350: `setupTestCases`.  The group for `name` is registered only when
the cases array is present and non-empty; falsy entries are skipped by the
`if (testCase)` guard; each truthy case registers
`describe(inspect(config)) > describe(inspect(code)) > spec(description || 'no description')`. -/
def setupTestCases {Cfg T β : Type} (env : Env Cfg) (name : String)
    (schema : TestSchema Cfg) (cases : Option (List (Option T))) (toTC : T → TestCase)
    (comparisons : T → β) : List (TestTree β) :=
  match cases with
  | none => []
  | some cs =>
    if cs.isEmpty then []
    else
      [TestTree.group name (modeOf schema.only schema.skip)
        (cs.filterMap (fun oc => oc.map (fun tc =>
          TestTree.group (env.inspectConfig schema.config) ExecMode.normal
            [TestTree.group (env.inspectString (toTC tc).code) ExecMode.normal
              [TestTree.leaf (jsOrString (toTC tc).description "no description")
                (modeOf (toTC tc).only (toTC tc).skip) (comparisons tc)]])))]

/-- Lines 166-311: `testRule(schema)`: a top-level `describe(schema.ruleName)`
containing the accept and reject registrations, each leaf carrying its body. -/
def testRule {Cfg : Type} (env : Env Cfg) (options : GetTestRuleOptions)
    (schema : TestSchema Cfg) : TestTree (RunResult Cfg) :=
  let stylelintConfig := buildStylelintConfig options schema
  TestTree.group schema.ruleName ExecMode.normal
    (setupTestCases env "accept" schema schema.accept id
        (acceptBody env stylelintConfig schema) ++
      setupTestCases env "reject" schema schema.reject RejectTestCase.toTestCase
        (rejectBody env stylelintConfig schema))

/-- Line 165: the factory returning the `testRule` function. -/
def getTestRule {Cfg : Type} (env : Env Cfg) (options : GetTestRuleOptions) :
    TestSchema Cfg → TestTree (RunResult Cfg) :=
  fun schema => testRule env options schema

/-- Flatten a registration tree to its leaves: for each leaf, the list of
enclosing group labels (outermost first) and the leaf's name. -/
def TestTree.leafShapes {β : Type} : TestTree β → List (List String × String)
  | TestTree.leaf name _ _ => [([], name)]
  | TestTree.group label _ children =>
    (children.attach.map (fun c => TestTree.leafShapes c.1)).flatten.map
      (fun p => (label :: p.1, p.2))
decreasing_by
  have h := List.sizeOf_lt_of_mem c.2
  simp only [TestTree.group.sizeOf_spec]
  omega

/-- Leaf shapes of a list of registration trees, in order. -/
def leafShapesList {β : Type} (ts : List (TestTree β)) : List (List String × String) :=
  (ts.map TestTree.leafShapes).flatten

/-- The leaf shapes the spec describes for one accept/reject sub-group, phrased
from the spec's words (with the amended fallback rule for the leaf name): one
leaf per truthy case, under `ruleName > groupName > rendered config > rendered
code`, named by the case's description, or by the literal fallback when the
description is absent or empty. -/
def describedCaseShapes {Cfg T : Type} (env : Env Cfg) (schema : TestSchema Cfg)
    (groupName : String) (toTC : T → TestCase) (cases : Option (List (Option T))) :
    List (List String × String) :=
  match cases with
  | none => []
  | some cs =>
    if cs.isEmpty then []
    else
      (cs.filterMap id).map (fun tc =>
        ([schema.ruleName, groupName, env.inspectConfig schema.config,
            env.inspectString (toTC tc).code],
          jsOrString (toTC tc).description "no description"))

/-! Concrete scenarios used by counterexamples and witnesses.  The rule
configuration type is instantiated with `Nat`. -/

/-- An accept case whose description is present but empty. -/
def tcEmptyDescription : AcceptTestCase :=
  { code := "a", description := some "", only := false, skip := false }

/-- A schema with the single accept case `tcEmptyDescription`. -/
def schemaD : TestSchema Nat :=
  { ruleName := "rule-x", config := 7, accept := some [some tcEmptyDescription],
    reject := none, fix := false, plugins := none, customSyntax := none,
    codeFilename := none, only := false, skip := false }

/-- An environment whose engine returns no results and whose inspectors are
simple renderings. -/
def envD : Env Nat :=
  { lint := fun _ => { results := [] },
    inspectConfig := fun n => toString n,
    inspectString := fun s => s }

/-- Factory options carrying no plugins. -/
def optionsNone : GetTestRuleOptions := { plugins := none }

/-- A rule warning produced by the oracle engines below. -/
def warnBad : ActualWarning :=
  { text := "bad", line := some 1, column := some 2, endLine := none, endColumn := none }

/-- An engine result entry: one rule warning, nothing else, no processed tree. -/
def resultBad : StylelintResult :=
  { warnings := [warnBad], parseErrors := [], invalidOptionWarnings := [],
    postcssResult := none }

/-- An engine result entry: no diagnostics and a processed tree rendering `"b"`. -/
def resultFixedB : StylelintResult :=
  { warnings := [], parseErrors := [], invalidOptionWarnings := [],
    postcssResult := some { root := some { toStringWith := fun _ => "b" },
                            opts := some { syntaxName := none } } }

/-- An engine result entry: no diagnostics and no processed tree. -/
def resultClean : StylelintResult :=
  { warnings := [], parseErrors := [], invalidOptionWarnings := [],
    postcssResult := none }

/-- An oracle engine: code `"a"` without autofix lints to `resultBad`; with
autofix it produces the tree rendering `"b"`; everything else is clean. -/
def envW : Env Nat :=
  { lint := fun o =>
      if o.code = "a" then
        if o.fix then { results := [resultFixedB] } else { results := [resultBad] }
      else { results := [resultClean] },
    inspectConfig := fun n => toString n,
    inspectString := fun s => s }

/-- A reject case declaring the single warning `warnBad` and a fixed output. -/
def tcW : RejectTestCase :=
  { code := "a", description := none, only := false, skip := false,
    message := some "bad", line := some 1, column := some 2, endLine := none,
    endColumn := none, fixed := some "b", unfixable := false, warnings := none }

/-- An autofix-enabled schema carrying `tcW` as its reject case. -/
def schemaW : TestSchema Nat :=
  { ruleName := "rule-x", config := 7, accept := none, reject := some [some tcW],
    fix := true, plugins := none, customSyntax := none, codeFilename := none,
    only := false, skip := false }

/-- The engine configuration `testRule` builds for `schemaW` with no factory plugins. -/
def cfgW : StylelintConfig Nat := buildStylelintConfig optionsNone schemaW

/-- The reject case `tcW` with no `fixed` text (and `unfixable` unset). -/
def tcW2 : RejectTestCase := { tcW with fixed := none }

/-- An engine result entry with one warning and a processed tree rendering `"a"`. -/
def resultBadRootA : StylelintResult :=
  { warnings := [warnBad], parseErrors := [], invalidOptionWarnings := [],
    postcssResult := some { root := some { toStringWith := fun _ => "a" },
                            opts := some { syntaxName := none } } }

/-- An oracle engine that always reports `warnBad` and renders the tree back to
`"a"`: autofix never changes the code and never removes the warning. -/
def envU : Env Nat :=
  { lint := fun _ => { results := [resultBadRootA] },
    inspectConfig := fun n => toString n,
    inspectString := fun s => s }

/-- An unfixable reject case without a declared `fixed` text. -/
def tcU : RejectTestCase := { tcW with fixed := none, unfixable := true }

/-- An unfixable reject case whose declared `fixed` text is the empty string. -/
def tcU2 : RejectTestCase := { tcW with fixed := some "", unfixable := true }

/-- An accept case with code `"a"`. -/
def tcA : AcceptTestCase := { code := "a", description := none, only := false, skip := false }

/-- An autofix-enabled schema carrying `tcA` as its accept case. -/
def schemaA : TestSchema Nat :=
  { ruleName := "rule-x", config := 7, accept := some [some tcA], reject := none,
    fix := true, plugins := none, customSyntax := none, codeFilename := none,
    only := false, skip := false }

/-- An engine result entry: no diagnostics and a processed tree rendering `"a"`. -/
def resultCleanRootA : StylelintResult :=
  { warnings := [], parseErrors := [], invalidOptionWarnings := [],
    postcssResult := some { root := some { toStringWith := fun _ => "a" },
                            opts := some { syntaxName := none } } }

/-- An oracle engine that reports nothing and renders the tree back to `"a"`. -/
def envA : Env Nat :=
  { lint := fun _ => { results := [resultCleanRootA] },
    inspectConfig := fun n => toString n,
    inspectString := fun s => s }

/-- The engine configuration for `schemaA` with no factory plugins. -/
def cfgA : StylelintConfig Nat := buildStylelintConfig optionsNone schemaA

/-- Factory options supplying a plugin path. -/
def optionsFactory : GetTestRuleOptions := { plugins := some (Plugins.single "factory") }

/-- A schema supplying its own plugin path. -/
def schemaSP : TestSchema Nat := { schemaW with plugins := some (Plugins.single "schema") }

/-- An engine output with a renderable processed tree. -/
def outputRootA : LinterResult := { results := [resultCleanRootA] }

/-- An engine output whose single result has no processed tree. -/
def outputBad : LinterResult := { results := [resultBad] }

@[simp] lemma leafShapes_leaf {β : Type} (name : String) (mode : ExecMode) (body : β) :
    (TestTree.leaf name mode body).leafShapes = [([], name)] := by
  rw [TestTree.leafShapes]

@[simp] lemma leafShapes_group {β : Type} (label : String) (mode : ExecMode)
    (children : List (TestTree β)) :
    (TestTree.group label mode children).leafShapes =
      (children.map TestTree.leafShapes).flatten.map (fun p => (label :: p.1, p.2)) := by
  rw [TestTree.leafShapes, List.attach_map_coe]

lemma filterMap_option_map {α β : Type} (f : α → β) (cs : List (Option α)) :
    cs.filterMap (fun oc => oc.map f) = (cs.filterMap id).map f := by
  induction cs with
  | nil => simp
  | cons head tail ih => cases head <;> simp [ih]

lemma flatten_singleton_map {α β : Type} (f : α → β) (l : List α) :
    (l.map (fun a => [f a])).flatten = l.map f := by
  induction l <;> simp [*]

lemma setup_leafShapesList {Cfg T β : Type} (env : Env Cfg) (name : String)
    (schema : TestSchema Cfg) (cases : Option (List (Option T))) (toTC : T → TestCase)
    (comparisons : T → β) :
    leafShapesList (setupTestCases env name schema cases toTC comparisons) =
      (match cases with
        | none => []
        | some cs =>
          if cs.isEmpty then []
          else
            (cs.filterMap id).map (fun tc =>
              ([name, env.inspectConfig schema.config, env.inspectString (toTC tc).code],
                jsOrString (toTC tc).description "no description"))) := by
  cases cases with
  | none => rfl
  | some cs =>
    simp only [setupTestCases]
    by_cases h : cs.isEmpty
    · simp [h, leafShapesList]
    · simp only [h, Bool.false_eq_true, if_false, leafShapesList]
      rw [filterMap_option_map]
      simp only [List.map_cons, List.map_nil, List.flatten_cons, List.flatten_nil,
        List.append_nil, leafShapes_group, List.map_map]
      simp only [Function.comp_def, leafShapes_group, leafShapes_leaf, List.map_cons,
        List.map_nil, List.flatten_cons, List.flatten_nil, List.append_nil]
      rw [flatten_singleton_map, List.map_map]
      rfl

lemma setup_shapes_under_rule {Cfg T β : Type} (env : Env Cfg) (name : String)
    (schema : TestSchema Cfg) (cases : Option (List (Option T))) (toTC : T → TestCase)
    (comparisons : T → β) :
    (((setupTestCases env name schema cases toTC comparisons).map
          TestTree.leafShapes).flatten).map (fun p => (schema.ruleName :: p.1, p.2)) =
      describedCaseShapes env schema name toTC cases := by
  have h := setup_leafShapesList env name schema cases toTC comparisons
  unfold leafShapesList at h
  rw [h]
  cases cases with
  | none => rfl
  | some cs =>
    by_cases hcs : cs.isEmpty <;>
      simp [describedCaseShapes, hcs, List.map_map]

/-- The full flattening of a `testRule` registration tree: one leaf per truthy
case, under the rule-name, group-name, rendered-config and rendered-code labels. -/
lemma testRule_leafShapes {Cfg : Type} (env : Env Cfg) (options : GetTestRuleOptions)
    (schema : TestSchema Cfg) :
    (testRule env options schema).leafShapes =
      describedCaseShapes env schema "accept" id schema.accept ++
        describedCaseShapes env schema "reject" RejectTestCase.toTestCase schema.reject := by
  simp only [testRule, leafShapes_group, List.map_append, List.flatten_append]
  rw [setup_shapes_under_rule, setup_shapes_under_rule]

/-- C3 (counterexample): a case whose description is present but empty gets the
leaf name `"no description"`, although the claim says the fallback is used only
when the description is absent. -/
theorem c3_leaf_name_counterexample :
    (testRule envD optionsNone schemaD).leafShapes =
        [(["rule-x", "accept", "7", "a"], "no description")] ∧
      tcEmptyDescription.description = some "" ∧ ("no description" : String) ≠ "" := by
  refine ⟨?_, rfl, by decide⟩
  rw [testRule_leafShapes]
  rfl

/-- C3 (amended): every registered leaf test sits under a group labelled by the
rendered rule configuration, inside a group labelled by the rendered case code,
inside the accept/reject group and the rule-name group, and the leaf name is the
case's description, falling back to the literal `"no description"` when the
description is absent or empty. -/
theorem c3_nesting_amended {Cfg : Type} (env : Env Cfg) (options : GetTestRuleOptions)
    (schema : TestSchema Cfg) :
    (testRule env options schema).leafShapes =
      describedCaseShapes env schema "accept" id schema.accept ++
        describedCaseShapes env schema "reject" RejectTestCase.toTestCase schema.reject :=
  testRule_leafShapes env options schema

/-- C10: a falsy (null/undefined) entry in a cases array is silently skipped: it
contributes no leaf, and when any truthy case remains the registration trees are
exactly those of the list without the hole. -/
theorem c10_falsy_cases_skipped {Cfg T β : Type} (env : Env Cfg) (name : String)
    (schema : TestSchema Cfg) (toTC : T → TestCase) (comparisons : T → β)
    (l1 l2 : List (Option T)) :
    leafShapesList (setupTestCases env name schema (some (l1 ++ none :: l2)) toTC
          comparisons) =
        leafShapesList (setupTestCases env name schema (some (l1 ++ l2)) toTC
          comparisons) ∧
      (l1 ++ l2 ≠ [] →
        setupTestCases env name schema (some (l1 ++ none :: l2)) toTC comparisons =
          setupTestCases env name schema (some (l1 ++ l2)) toTC comparisons) := by
  by_cases h : l1 ++ l2 = []
  · obtain ⟨h1, h2⟩ := List.append_eq_nil.mp h
    subst h1
    subst h2
    refine ⟨?_, fun hcon => absurd rfl hcon⟩
    rw [setup_leafShapesList, setup_leafShapesList]
    simp
  · have hne : (l1 ++ none :: l2).isEmpty = false := by simp
    have h2 : (l1 ++ l2).isEmpty = false := List.isEmpty_eq_false.mpr h
    have heq : setupTestCases env name schema (some (l1 ++ none :: l2)) toTC comparisons =
        setupTestCases env name schema (some (l1 ++ l2)) toTC comparisons := by
      simp only [setupTestCases, hne, h2, Bool.false_eq_true, if_false]
      simp [List.filterMap_append, List.filterMap_cons]
    exact ⟨by rw [heq], fun _ => heq⟩

/-- C1 (counterexample): with both the factory and the schema supplying plugins,
the engine configuration is built with the factory's plugins, not the schema's,
contradicting the claimed `schemaPlugins ?? factoryPlugins` resolution. -/
theorem c1_plugins_precedence_counterexample :
    (buildStylelintConfig optionsFactory schemaSP).plugins =
        some (Plugins.single "factory") ∧
      schemaSP.plugins = some (Plugins.single "schema") ∧
      (buildStylelintConfig optionsFactory schemaSP).plugins ≠ schemaSP.plugins :=
  ⟨rfl, rfl, by decide⟩

/-- C1 (amended): the engine configuration maps the rule name to the schema's
config, and resolves plugins as `options.plugins || schema.plugins`: the
factory's plugins when they are supplied and truthy, the schema's otherwise. -/
theorem c1_plugins_amended {Cfg : Type} (options : GetTestRuleOptions)
    (schema : TestSchema Cfg) :
    (buildStylelintConfig options schema).rules = (schema.ruleName, schema.config) ∧
      (∀ p, options.plugins = some p → p.jsTruthy = true →
        (buildStylelintConfig options schema).plugins = options.plugins) ∧
      ((∀ p, options.plugins = some p → p.jsTruthy = false) →
        (buildStylelintConfig options schema).plugins = schema.plugins) := by
  refine ⟨rfl, ?_, ?_⟩
  · intro p hp ht
    simp [buildStylelintConfig, jsOrPlugins, hp, ht]
  · intro hfalsy
    cases ho : options.plugins with
    | none => simp [buildStylelintConfig, jsOrPlugins, ho]
    | some p => simp [buildStylelintConfig, jsOrPlugins, ho, hfalsy p ho]

/-- Witness for C1 (amended): with truthy factory plugins the built configuration
keeps them. -/
theorem c1_plugins_amended_witness :
    optionsFactory.plugins = some (Plugins.single "factory") ∧
      (Plugins.single "factory").jsTruthy = true ∧
      (buildStylelintConfig optionsFactory schemaSP).plugins = optionsFactory.plugins :=
  ⟨rfl, by decide,
    (c1_plugins_amended optionsFactory schemaSP).2.1 (Plugins.single "factory") rfl (by decide)⟩

/-- C9: when the first result entry carries a processed tree with both a root and
processing options, `getOutputCss` renders the root with the recorded syntax;
in every other case it throws the TypeError `"Invalid result"`. -/
theorem c9_getOutputCss_spec (output : LinterResult) (r : StylelintResult)
    (h : output.results.head? = some r) :
    (∀ pr root po, r.postcssResult = some pr → pr.root = some root → pr.opts = some po →
        getOutputCss output = Except.ok (root.toStringWith po.syntaxName)) ∧
      ((¬ ∃ pr root po, r.postcssResult = some pr ∧ pr.root = some root ∧
          pr.opts = some po) →
        getOutputCss output = Except.error (Failure.typeError "Invalid result")) := by
  constructor
  · intro pr root po hpr hroot hpo
    simp [getOutputCss, h, hpr, hroot, hpo]
  · intro hno
    cases hpr : r.postcssResult with
    | none => simp [getOutputCss, h, hpr]
    | some pr =>
      cases hroot : pr.root with
      | none => simp [getOutputCss, h, hpr, hroot]
      | some root =>
        cases hpo : pr.opts with
        | none => simp [getOutputCss, h, hpr, hroot, hpo]
        | some po => exact absurd ⟨pr, root, po, hpr, hroot, hpo⟩ hno

/-- Witness for C9: the renderable output renders, the tree-less output throws. -/
theorem c9_getOutputCss_spec_witness :
    getOutputCss outputRootA = Except.ok "a" ∧
      getOutputCss outputBad = Except.error (Failure.typeError "Invalid result") := by
  constructor
  · exact (c9_getOutputCss_spec outputRootA resultCleanRootA rfl).1 _ _ _ rfl rfl rfl
  · refine (c9_getOutputCss_spec outputBad resultBad rfl).2 ?_
    rintro ⟨pr, root, po, hpr, h1, h2⟩
    simp [resultBad] at hpr

lemma subsetMatches_iff (a : ActualWarning) (w : Warning) :
    subsetMatches a w = true ↔
      ((∀ m, w.message = some m → a.text = m) ∧
        (∀ v, w.line = some v → a.line = some v) ∧
        (∀ v, w.column = some v → a.column = some v) ∧
        (∀ v, w.endLine = some v → a.endLine = some v) ∧
        (∀ v, w.endColumn = some v → a.endColumn = some v)) := by
  obtain ⟨m, l, c, el, ec⟩ := w
  unfold subsetMatches
  cases m <;> cases l <;> cases c <;> cases el <;> cases ec <;> simp [and_assoc]

/-- C5: the per-warning loop succeeds exactly when every expected warning has a
defined `message`, an actual warning exists at its index, and that actual warning
agrees on each field the expected warning declares (text against message, line,
column, endLine, endColumn); fields the expectation leaves undefined are not
constrained. -/
theorem c5_warning_subset_match (expected : List Warning) (actual : List ActualWarning) :
    checkExpectedWarnings expected actual = Except.ok () ↔
      ∀ i, ∀ hi : i < expected.length,
        (expected.get ⟨i, hi⟩).message.isSome = true ∧
          ∃ a, actual.get? i = some a ∧
            (∀ m, (expected.get ⟨i, hi⟩).message = some m → a.text = m) ∧
            (∀ v, (expected.get ⟨i, hi⟩).line = some v → a.line = some v) ∧
            (∀ v, (expected.get ⟨i, hi⟩).column = some v → a.column = some v) ∧
            (∀ v, (expected.get ⟨i, hi⟩).endLine = some v → a.endLine = some v) ∧
            (∀ v, (expected.get ⟨i, hi⟩).endColumn = some v → a.endColumn = some v) := by
  induction expected generalizing actual with
  | nil => simp [checkExpectedWarnings]
  | cons w ws ih =>
    cases actual with
    | nil =>
      constructor
      · intro hok
        by_cases hm : w.message.isSome
        · rw [checkExpectedWarnings, if_pos hm] at hok
          exact absurd hok (by simp)
        · rw [checkExpectedWarnings, if_neg hm] at hok
          exact absurd hok (by simp)
      · intro hall
        obtain ⟨hm0, a, ha, hf⟩ := hall 0 (Nat.succ_pos ws.length)
        simp at ha
    | cons a0 as =>
      rw [checkExpectedWarnings]
      by_cases hm : w.message.isSome
      · rw [if_pos hm]
        by_cases hsm : subsetMatches a0 w
        · rw [if_pos hsm, ih as]
          constructor
          · intro hall i hi
            cases i with
            | zero => exact ⟨hm, a0, rfl, (subsetMatches_iff a0 w).mp hsm⟩
            | succ n => exact hall n (Nat.lt_of_succ_lt_succ hi)
          · intro hall n hn
            exact hall (n + 1) (Nat.succ_lt_succ hn)
        · rw [if_neg hsm]
          constructor
          · intro hok
            exact absurd hok (by simp)
          · intro hall
            obtain ⟨hm0, a, ha, hf⟩ := hall 0 (Nat.succ_pos ws.length)
            have haa : a = a0 := by simpa using ha.symm
            subst haa
            exact absurd ((subsetMatches_iff a w).mpr hf) hsm
      · rw [if_neg hm]
        constructor
        · intro hok
          exact absurd hok (by simp)
        · intro hall
          obtain ⟨hm0, _, _, _⟩ := hall 0 (Nat.succ_pos ws.length)
          exact absurd hm0 hm

/-- Witness for C5: the single-warning expectation of `tcW` matches `warnBad`. -/
theorem c5_warning_subset_match_witness :
    checkExpectedWarnings [tcW.toWarning] [warnBad] = Except.ok () := by
  refine (c5_warning_subset_match [tcW.toWarning] [warnBad]).mpr ?_
  intro i hi
  have hz : i = 0 := Nat.lt_one_iff.mp hi
  subst hz
  refine ⟨rfl, warnBad, rfl, ?_, ?_, ?_, ?_, ?_⟩
  all_goals intro v hv
  all_goals simp [tcW, RejectTestCase.toWarning] at hv
  all_goals simp [warnBad, hv]

/-- C4: if a reject-case body succeeds, then the single result had no parse
errors, and the length of the actual-warnings sequence (invalid-option warnings
followed by rule warnings) equals the declared `warnings` list's length when that
list is present, and 1 otherwise; moreover the per-warning loop succeeded against
that concatenated sequence. -/
theorem c4_reject_counts {Cfg : Type} (env : Env Cfg) (cfg : StylelintConfig Cfg)
    (schema : TestSchema Cfg) (tc : RejectTestCase) (r : StylelintResult)
    (h : (env.lint (mkLintOptions cfg schema tc.code)).results.head? = some r)
    (hok : (rejectBody env cfg schema tc).outcome = Except.ok ()) :
    r.parseErrors = [] ∧
      (r.invalidOptionWarnings ++ r.warnings).length =
        (match tc.warnings with | some ws => ws.length | none => 1) ∧
      checkExpectedWarnings
          (match tc.warnings with | some ws => ws | none => [tc.toWarning])
          (r.invalidOptionWarnings ++ r.warnings) = Except.ok () := by
  have hfp : rejectFirstPhase r tc = Except.ok () := by
    cases hfp2 : rejectFirstPhase r tc with
    | ok u => cases u; rfl
    | error e => simp [rejectBody, h, hfp2] at hok
  unfold rejectFirstPhase at hfp
  by_cases h1 : r.parseErrors = []
  · rw [if_pos h1] at hfp
    by_cases h2 : (actualWarningsOf r).length = expectedWarningCount tc
    · rw [if_pos h2] at hfp
      refine ⟨h1, ?_, ?_⟩
      · simpa [actualWarningsOf, expectedWarningCount] using h2
      · simpa [effectiveWarnings, actualWarningsOf] using hfp
    · rw [if_neg h2] at hfp
      exact absurd hfp (by simp)
  · rw [if_neg h1] at hfp
    exact absurd hfp (by simp)

/-- Witness for C4: the passing scenario `tcW` under the oracle `envW`. -/
theorem c4_reject_counts_witness :
    resultBad.parseErrors = [] ∧
      (resultBad.invalidOptionWarnings ++ resultBad.warnings).length =
        (match tcW.warnings with | some ws => ws.length | none => 1) ∧
      checkExpectedWarnings
          (match tcW.warnings with | some ws => ws | none => [tcW.toWarning])
          (resultBad.invalidOptionWarnings ++ resultBad.warnings) = Except.ok () :=
  c4_reject_counts envW cfgW schemaW tcW resultBad rfl rfl

/-- C6: an accept-case body succeeds exactly when the single result's
`warnings`, `parseErrors` and `invalidOptionWarnings` are all empty and, when the
schema's autofix flag is set, a second engine invocation on the same options with
`fix: true` yields an output whose extracted source equals the case's code. -/
theorem c6_accept_assertions {Cfg : Type} (env : Env Cfg) (cfg : StylelintConfig Cfg)
    (schema : TestSchema Cfg) (tc : AcceptTestCase) (r : StylelintResult)
    (h : (env.lint (mkLintOptions cfg schema tc.code)).results.head? = some r) :
    (acceptBody env cfg schema tc).outcome = Except.ok () ↔
      (r.warnings = [] ∧ r.parseErrors = [] ∧ r.invalidOptionWarnings = [] ∧
        (schema.fix = true →
          getOutputCss (env.lint { mkLintOptions cfg schema tc.code with fix := true }) =
            Except.ok tc.code)) := by
  by_cases h1 : r.warnings = []
  case neg => simp [acceptBody, h, h1]
  case pos =>
    by_cases h2 : r.parseErrors = []
    case neg => simp [acceptBody, h, h1, h2]
    case pos =>
      by_cases h3 : r.invalidOptionWarnings = []
      case neg => simp [acceptBody, h, h1, h2, h3]
      case pos =>
        cases hf : schema.fix with
        | false => simp [acceptBody, h, h1, h2, h3, hf]
        | true =>
          cases hg : getOutputCss
              (env.lint { mkLintOptions cfg schema tc.code with fix := true }) with
          | error e => simp [acceptBody, h, h1, h2, h3, hf, hg]
          | ok fixedCode =>
            by_cases heq : fixedCode = tc.code
            · simp [acceptBody, h, h1, h2, h3, hf, hg, heq]
            · simp [acceptBody, h, h1, h2, h3, hf, hg, heq]

/-- Witness for C6: the clean oracle `envA` makes the accept body succeed. -/
theorem c6_accept_assertions_witness :
    (acceptBody envA cfgA schemaA tcA).outcome = Except.ok () :=
  (c6_accept_assertions envA cfgA schemaA tcA resultCleanRootA rfl).mpr
    ⟨rfl, rfl, rfl, fun _ => rfl⟩

/-- Witness for C10: a null hole between two reads of the same one-case list. -/
theorem c10_falsy_cases_skipped_witness :
    leafShapesList (setupTestCases envD "accept" schemaD (some ([some tcA] ++ none :: []))
          id (fun _ => (0 : Nat))) =
        leafShapesList (setupTestCases envD "accept" schemaD (some ([some tcA] ++ []))
          id (fun _ => (0 : Nat))) ∧
      setupTestCases envD "accept" schemaD (some ([some tcA] ++ none :: [])) id
          (fun _ => (0 : Nat)) =
        setupTestCases envD "accept" schemaD (some ([some tcA] ++ [])) id
          (fun _ => (0 : Nat)) := by
  have h := c10_falsy_cases_skipped envD "accept" schemaD id (fun _ => (0 : Nat))
    [some tcA] []
  exact ⟨h.1, h.2 (by simp)⟩

/-- C2 (counterexample): a reject case with neither `fixed` nor `unfixable` under
an autofix schema does raise the descriptive configuration error, but only after
the engine has already been invoked once: the call trace is not empty. -/
theorem c2_fail_fast_counterexample :
    (rejectBody envW cfgW schemaW tcW2).outcome =
        Except.error (Failure.thrown
          "If using \x7b fix: true \x7d in test schema, all reject cases must have \x7b fixed: .. \x7d") ∧
      (rejectBody envW cfgW schemaW tcW2).calls ≠ [] := by
  exact ⟨rfl, by decide⟩

/-- C2 (amended): under an autofix schema, a reject case supplying neither
`fixed` (the empty string counts as supplied) nor `unfixable` makes the body
throw the descriptive configuration error before any autofix-enabled engine
invocation: exactly the initial non-autofix lint call has happened, provided its
warning assertions passed. -/
theorem c2_fail_fast_amended {Cfg : Type} (env : Env Cfg) (cfg : StylelintConfig Cfg)
    (schema : TestSchema Cfg) (tc : RejectTestCase) (r : StylelintResult)
    (h : (env.lint (mkLintOptions cfg schema tc.code)).results.head? = some r)
    (hfp : rejectFirstPhase r tc = Except.ok ())
    (hfix : schema.fix = true) (hfixed : tc.fixed = none) (hunf : tc.unfixable = false) :
    rejectBody env cfg schema tc =
      ⟨[mkLintOptions cfg schema tc.code],
        Except.error (Failure.thrown
          "If using \x7b fix: true \x7d in test schema, all reject cases must have \x7b fixed: .. \x7d")⟩ := by
  have hbody : rejectBody env cfg schema tc =
      rejectFixPhase env (mkLintOptions cfg schema tc.code) schema tc := by
    simp [rejectBody, h, hfp]
  rw [hbody]
  simp [rejectFixPhase, hfix, hfixed, hunf, jsTruthyStr]

/-- Witness for C2 (amended): the concrete scenario `tcW2` under `envW`. -/
theorem c2_fail_fast_amended_witness :
    rejectBody envW cfgW schemaW tcW2 =
      ⟨[mkLintOptions cfgW schemaW tcW2.code],
        Except.error (Failure.thrown
          "If using \x7b fix: true \x7d in test schema, all reject cases must have \x7b fixed: .. \x7d")⟩ :=
  c2_fail_fast_amended envW cfgW schemaW tcW2 resultBad rfl rfl rfl rfl rfl

/-- C7 (counterexample): an unfixable reject case whose `fixed` is the empty
string passes even though the extracted fixed text `"a"` differs from the
supplied `fixed`: the fixed-equality assertion is skipped for a falsy `fixed`. -/
theorem c7_unfixable_empty_fixed_counterexample :
    (rejectBody envU cfgW schemaW tcU2).outcome = Except.ok () ∧
      tcU2.fixed = some "" ∧
      getOutputCss (envU.lint { mkLintOptions cfgW schemaW tcU2.code with fix := true }) =
        Except.ok "a" ∧
      ("a" : String) ≠ "" :=
  ⟨rfl, rfl, rfl, by decide⟩

/-- C7 (amended): for an unfixable reject case under an autofix schema whose body
succeeds, the extracted fixed text equals the original code, and it equals the
declared `fixed` whenever `fixed` was supplied non-empty (an empty `fixed` is
falsy and is not compared). -/
theorem c7_unfixable_amended {Cfg : Type} (env : Env Cfg) (cfg : StylelintConfig Cfg)
    (schema : TestSchema Cfg) (tc : RejectTestCase) (fixedCode : String)
    (hfix : schema.fix = true) (hunf : tc.unfixable = true)
    (hok : (rejectBody env cfg schema tc).outcome = Except.ok ())
    (hg : getOutputCss (env.lint { mkLintOptions cfg schema tc.code with fix := true }) =
      Except.ok fixedCode) :
    fixedCode = tc.code ∧ ∀ f, tc.fixed = some f → f ≠ "" → fixedCode = f := by
  cases hh : (env.lint (mkLintOptions cfg schema tc.code)).results.head? with
  | none => simp [rejectBody, hh] at hok
  | some r =>
    cases hfp : rejectFirstPhase r tc with
    | error e => simp [rejectBody, hh, hfp] at hok
    | ok u =>
      cases u
      have hok2 : (rejectFixPhase env (mkLintOptions cfg schema tc.code) schema tc).outcome =
          Except.ok () := by
        have hbody : rejectBody env cfg schema tc =
            rejectFixPhase env (mkLintOptions cfg schema tc.code) schema tc := by
          simp [rejectBody, hh, hfp]
        rw [hbody] at hok
        exact hok
      have hsf : ¬ schema.fix = false := by simp [hfix]
      have hfc : fixChecksOf tc fixedCode = Except.ok () := by
        cases hfc2 : fixChecksOf tc fixedCode with
        | ok u2 => cases u2; rfl
        | error e =>
          by_cases hC : (schema.fix && !(jsTruthyStr tc.fixed) && !(tc.fixed == some "") &&
              !tc.unfixable) = true
          · rw [hunf] at hC
            simp at hC
          · simp [rejectFixPhase, hsf, hunf, hg, hfc2] at hok2
      have hfcc := hfc
      unfold fixChecksOf at hfcc
      rw [hunf] at hfcc
      simp only [Bool.true_eq_false, if_false] at hfcc
      by_cases hJ : (jsTruthyStr tc.fixed && !(tc.fixed == some fixedCode)) = true
      · rw [if_pos hJ] at hfcc
        exact absurd hfcc (by simp)
      · rw [if_neg hJ] at hfcc
        by_cases hEq : fixedCode = tc.code
        · refine ⟨hEq, ?_⟩
          intro f hf hfne
          rw [hf] at hJ
          simp [jsTruthyStr, hfne] at hJ
          exact hJ.symm
        · rw [if_neg hEq] at hfcc
          exact absurd hfcc (by simp)

/-- Witness for C7 (amended): the unfixable case `tcU` under `envU` leaves the
code unchanged. -/
theorem c7_unfixable_amended_witness :
    ("a" : String) = tcU.code ∧ tcU.unfixable = true :=
  ⟨(c7_unfixable_amended envU cfgW schemaW tcU "a" rfl rfl rfl rfl).1, rfl⟩

/-- C8: when an autofix-enabled reject body succeeds, its trace is exactly three
engine calls: the plain lint, the autofix lint, and a re-lint of the extracted
fixed text whose `fix` flag is the case's `unfixable` flag; and the re-lint's
result has the same `warnings` as the autofix pass's result and empty
`parseErrors`. -/
theorem c8_relint_convergence {Cfg : Type} (env : Env Cfg) (cfg : StylelintConfig Cfg)
    (schema : TestSchema Cfg) (tc : RejectTestCase)
    (hfix : schema.fix = true)
    (hok : (rejectBody env cfg schema tc).outcome = Except.ok ()) :
    ∃ fixedCode r1 r2,
      getOutputCss (env.lint { mkLintOptions cfg schema tc.code with fix := true }) =
          Except.ok fixedCode ∧
        (rejectBody env cfg schema tc).calls =
          [mkLintOptions cfg schema tc.code,
            { mkLintOptions cfg schema tc.code with fix := true },
            { mkLintOptions cfg schema tc.code with code := fixedCode, fix := tc.unfixable }] ∧
        (env.lint { mkLintOptions cfg schema tc.code with fix := true }).results.head? =
          some r1 ∧
        (env.lint { mkLintOptions cfg schema tc.code with code := fixedCode, fix := tc.unfixable }).results.head? = some r2 ∧
        r2.warnings = r1.warnings ∧ r2.parseErrors = [] := by
  cases hh : (env.lint (mkLintOptions cfg schema tc.code)).results.head? with
  | none => simp [rejectBody, hh] at hok
  | some r =>
    cases hfp : rejectFirstPhase r tc with
    | error e => simp [rejectBody, hh, hfp] at hok
    | ok u =>
      cases u
      have hbody : rejectBody env cfg schema tc =
          rejectFixPhase env (mkLintOptions cfg schema tc.code) schema tc := by
        simp [rejectBody, hh, hfp]
      rw [hbody] at hok
      have hsf : ¬ schema.fix = false := by simp [hfix]
      by_cases hC : ((jsTruthyStr tc.fixed = false ∧ ¬ tc.fixed = some "") ∧
          tc.unfixable = false)
      · simp [rejectFixPhase, hsf, hC] at hok
      · cases hg : getOutputCss
            (env.lint { mkLintOptions cfg schema tc.code with fix := true }) with
        | error e => simp [rejectFixPhase, hsf, hC, hg] at hok
        | ok fixedCode =>
          cases hfc : fixChecksOf tc fixedCode with
          | error e => simp [rejectFixPhase, hsf, hC, hg, hfc] at hok
          | ok u2 =>
            cases u2
            cases hr2 : (env.lint { mkLintOptions cfg schema tc.code with
                code := fixedCode, fix := tc.unfixable }).results.head? with
            | none => simp [rejectFixPhase, hsf, hC, hg, hfc, hr2] at hok
            | some r2 =>
              cases hr1 : (env.lint { mkLintOptions cfg schema tc.code with
                  fix := true }).results.head? with
              | none => simp [rejectFixPhase, hsf, hC, hg, hfc, hr2, hr1] at hok
              | some r1 =>
                by_cases hcond : (r2.warnings = r1.warnings ∧ r2.parseErrors = [])
                · refine ⟨fixedCode, r1, r2, rfl, ?_, rfl, hr2, hcond.1, hcond.2⟩
                  rw [hbody]
                  simp [rejectFixPhase, hsf, hC, hg, hfc, hr2, hr1, hcond]
                · simp [rejectFixPhase, hsf, hC, hg, hfc, hr2, hr1, hcond] at hok

/-- Witness for C8: the fixable scenario `tcW` under `envW`. -/
theorem c8_relint_convergence_witness :
    ∃ fixedCode r1 r2,
      getOutputCss (envW.lint { mkLintOptions cfgW schemaW tcW.code with fix := true }) =
          Except.ok fixedCode ∧
        (rejectBody envW cfgW schemaW tcW).calls =
          [mkLintOptions cfgW schemaW tcW.code,
            { mkLintOptions cfgW schemaW tcW.code with fix := true },
            { mkLintOptions cfgW schemaW tcW.code with code := fixedCode, fix := tcW.unfixable }] ∧
        (envW.lint { mkLintOptions cfgW schemaW tcW.code with fix := true }).results.head? =
          some r1 ∧
        (envW.lint { mkLintOptions cfgW schemaW tcW.code with code := fixedCode, fix := tcW.unfixable }).results.head? = some r2 ∧
        r2.warnings = r1.warnings ∧ r2.parseErrors = [] :=
  c8_relint_convergence envW cfgW schemaW tcW rfl rfl

end VitestStylelint
